import Mathlib

/-!
Verification development for the call-monitoring bot (src/main.py, src/messaging.py).

Shallow embedding conventions:
* Display strings from the dashboard are modelled as `List Char` (abbreviated
  `Str`); digits are ASCII digits.
* The Selenium page is modelled as the data the extractor reads from it:
  cell texts, the located play button with its `onclick` and data attributes,
  and the ancestor row attributes.
* Stateful loops are modelled as explicit step functions over a state type,
  driven by an environment that fixes the outcome of every external call
  (HTTP probe results, login attempt outcomes, ffprobe durations).
* Fallible code returns `Option`.
-/

namespace Bot

abbrev Str := List Char

/-- Char list of a string literal (used only to write test data compactly). -/
def str (s : String) : Str := s.data

/-- ASCII whitespace, as stripped by Python `str.strip()` on the cell texts. -/
def isSpaceChar (c : Char) : Bool :=
  c = ' ' ∨ c = '\n' ∨ c = '\t' ∨ c = '\r'

/-- `text.strip()` on a cell text. -/
def strip (s : Str) : Str :=
  ((s.dropWhile isSpaceChar).reverse.dropWhile isSpaceChar).reverse

/-- Maximal leading run of ASCII digits, with the rest of the input. -/
def takeDigits : Str → Str × Str
  | [] => ([], [])
  | c :: rest =>
    if c.isDigit then
      let p := takeDigits rest
      (c :: p.1, p.2)
    else ([], c :: rest)

/-- A quote character, as accepted by the `['\x22]`-style character classes in
the `re` patterns of `get_active_calls` (either a single or a double quote). -/
def isQuote (c : Char) : Bool :=
  c = Char.ofNat 39 ∨ c = '"'

/-- Match the pattern `playCall\((quote)(\d+\.\d+)(quote)\)` at the head of the
input, returning the captured `\d+\.\d+` group (pattern 1 of the UUID
extraction in `get_active_calls`, main.py line 355). -/
def matchPlayCallAt (s : Str) : Option Str :=
  match s with
  | 'p' :: 'l' :: 'a' :: 'y' :: 'C' :: 'a' :: 'l' :: 'l' :: '(' :: q :: rest =>
    if isQuote q then
      let p1 := takeDigits rest
      if p1.1 = [] then none
      else
        match p1.2 with
        | '.' :: r2 =>
          let p2 := takeDigits r2
          if p2.1 = [] then none
          else
            match p2.2 with
            | q2 :: ')' :: _ => if isQuote q2 then some (p1.1 ++ '.' :: p2.1) else none
            | _ => none
        | _ => none
    else none
  | _ => none

/-- Match `(quote)(\d{10,}\.\d+)(quote)` at the head of the input, returning
the captured group (pattern 2 of the UUID extraction, main.py line 360). -/
def matchQuoted10At (s : Str) : Option Str :=
  match s with
  | q :: rest =>
    if isQuote q then
      let p1 := takeDigits rest
      if p1.1.length < 10 then none
      else
        match p1.2 with
        | '.' :: r2 =>
          let p2 := takeDigits r2
          if p2.1 = [] then none
          else
            match p2.2 with
            | q2 :: _ => if isQuote q2 then some (p1.1 ++ '.' :: p2.1) else none
            | _ => none
        | _ => none
    else none
  | [] => none

/-- `re.search`: try the positional matcher at every offset, leftmost first. -/
def reSearch (f : Str → Option Str) : Str → Option Str
  | [] => none
  | c :: rest =>
    match f (c :: rest) with
    | some r => some r
    | none => reSearch f rest

/-- `re.match(r'^\d{10,}\.\d+$', s)` as a Boolean: at least ten digits, a dot,
at least one digit, then the end of the string (Python's `$` also accepts one
trailing newline). This is the UUID validation of `get_active_calls`. -/
def validUuid (s : Str) : Bool :=
  let p1 := takeDigits s
  if p1.1.length < 10 then false
  else
    match p1.2 with
    | '.' :: r2 =>
      let p2 := takeDigits r2
      if p2.1 = [] then false
      else decide (p2.2 = [] ∨ p2.2 = ['\n'])
    | _ => false

/-- `'pat' in s` (Python substring test): `subAt` checks a match at the head. -/
def subAt : Str → Str → Bool
  | [], _ => true
  | _ :: _, [] => false
  | p :: ps, c :: cs => p = c && subAt ps cs

/-- Python's `pat in s` substring containment. -/
def substrOf (pat : Str) : Str → Bool
  | [] => subAt pat []
  | c :: rest => subAt pat (c :: rest) || substrOf pat rest

/-! ## Record Extractor (`get_active_calls`, main.py lines 287-539) -/

/-- The play button located inside a row: its `onclick` attribute (if any) and
its other attributes, as an association list consulted by `get_attribute`. -/
structure BtnInfo where
  onclick : Option Str
  attrs : List (Str × Str)

/-- One data row of a `table.table` body, as read by Method 1 of
`get_active_calls`: the `td` texts, the located play button (`none` means the
three button lookups all failed and the row is skipped), and the attributes of
the ancestor `tr` (`none` means the ancestor lookup raised). -/
structure PageRow where
  cells : List Str
  button : Option BtnInfo
  rowAttrs : Option (List (Str × Str))

/-- One button found by the fallback Method 2, together with the `td` texts of
the row-shaped ancestor it climbed to. -/
structure FallbackBtn where
  btn : BtnInfo
  rowCells : List Str

/-- The rendered page, as the extractor reads it: the rows of all
`table.table` bodies, and all `button[class*=btn]` elements for the fallback.
Rows or tables whose element lookups raise are assumed absent from the model
(the source skips them with a debug log). -/
structure Page where
  tables : List (List PageRow)
  buttons : List FallbackBtn

/-- An extracted call record (the dict appended to `calls`). The live
`play_button`/`row` element handles are not part of the data model. -/
structure CallRecord where
  id : Str
  termination : Str
  did : Str
  cli : Str
  duration : Str
  revenue : Str
  uuid : Option Str
deriving DecidableEq

/-- `element.get_attribute(name)` on the modelled attribute list. -/
def getAttr (attrs : List (Str × Str)) (k : Str) : Option Str :=
  (attrs.find? (fun p => decide (p.1 = k))).map (·.2)

/-- The attribute-scanning loop: for each key in order, read the attribute;
if the value is truthy and matches `^\d{10,}\.\d+$`, take it and stop
(main.py lines 369-374 and 380-385). -/
def firstValidAttr (get : Str → Option Str) : List Str → Option Str
  | [] => none
  | k :: ks =>
    match get k with
    | some v => if v ≠ [] ∧ validUuid v then some v else firstValidAttr get ks
    | none => firstValidAttr get ks

/-- UUID extraction from the `onclick` attribute: pattern 1
(`playCall('d.d')`), then pattern 2 (any quoted `\d{10,}\.\d+`); an absent or
empty (falsy) `onclick` yields nothing (main.py lines 351-362). -/
def extractOnclickUuid (oc : Option Str) : Option Str :=
  match oc with
  | none => none
  | some s =>
    if s = [] then none
    else
      match reSearch matchPlayCallAt s with
      | some u => some u
      | none => reSearch matchQuoted10At s

/-- Full UUID extraction for Method 1: `onclick` patterns, then the button's
own data attributes, then the ancestor row's data attributes
(main.py lines 348-387). -/
def extractUuidPrimary (b : BtnInfo) (rowAttrs : Option (List (Str × Str))) : Option Str :=
  match extractOnclickUuid b.onclick with
  | some u => some u
  | none =>
    match firstValidAttr (getAttr b.attrs)
        [str "data-uuid", str "data-call-id", str "data-id", str "id"] with
    | some u => some u
    | none =>
      match rowAttrs with
      | none => none
      | some ra =>
        firstValidAttr (getAttr ra) [str "data-uuid", str "data-call-id", str "data-id"]

/-- UUID extraction for the fallback Method 2: `onclick` patterns, then the
button's own attributes; there is no ancestor-row step
(main.py lines 463-487). -/
def extractUuidFallback (b : BtnInfo) : Option Str :=
  match extractOnclickUuid b.onclick with
  | some u => some u
  | none =>
    firstValidAttr (getAttr b.attrs)
      [str "data-uuid", str "data-call-id", str "data-id", str "id"]

/-- The derived call identifier `f"{termination}_{did}_{cli}"`
(main.py lines 410 and 511). -/
def mkCallId (termination did cli : Str) : Str :=
  termination ++ '_' :: did ++ '_' :: cli

/-- Method-1 processing of one row (main.py lines 313-429): at least five
cells, a located play button, an extracted UUID that passes validation
(an invalid or missing UUID skips the row with `continue`), and the
final `call_id not in processed_calls and did and cli` filter. -/
def rowToCall (processed : List Str) (r : PageRow) : Option CallRecord :=
  if r.cells.length < 5 then none
  else
    let termination := strip (r.cells.getD 0 [])
    let did := strip (r.cells.getD 1 [])
    let cli := strip (r.cells.getD 2 [])
    let duration := strip (r.cells.getD 3 [])
    let revenue := strip (r.cells.getD 4 [])
    match r.button with
    | none => none
    | some b =>
      match extractUuidPrimary b r.rowAttrs with
      | none => none
      | some u =>
        if validUuid u then
          let callId := mkCallId termination did cli
          if callId ∈ processed then none
          else if did = [] then none
          else if cli = [] then none
          else some ⟨callId, termination, did, cli, duration, revenue, some u⟩
        else none

/-- Fallback processing of one button and its climbed-to row
(main.py lines 445-529). -/
def fallbackToCall (processed : List Str) (fb : FallbackBtn) : Option CallRecord :=
  if fb.rowCells.length < 5 then none
  else
    let termination := strip (fb.rowCells.getD 0 [])
    let did := strip (fb.rowCells.getD 1 [])
    let cli := strip (fb.rowCells.getD 2 [])
    let duration := strip (fb.rowCells.getD 3 [])
    let revenue := strip (fb.rowCells.getD 4 [])
    match extractUuidFallback fb.btn with
    | none => none
    | some u =>
      if validUuid u then
        let callId := mkCallId termination did cli
        if callId ∈ processed then none
        else if did = [] then none
        else if cli = [] then none
        else some ⟨callId, termination, did, cli, duration, revenue, some u⟩
      else none

/-- `get_active_calls`: scan every table row with Method 1; if that yields no
records at all, fall back to Method 2 over all page buttons
(main.py lines 287-539). -/
def get_active_calls (page : Page) (processed : List Str) : List CallRecord :=
  if (page.tables.flatten.filterMap (rowToCall processed)).isEmpty then
    page.buttons.filterMap (fallbackToCall processed)
  else page.tables.flatten.filterMap (rowToCall processed)

/-- The ids a page can yield through either strategy against an empty ledger
(used to state snapshot-level uniqueness hypotheses). -/
def pageIds (page : Page) : List Str :=
  (page.tables.flatten.filterMap fun r => (rowToCall [] r).map (·.id)) ++
    (page.buttons.filterMap fun fb => (fallbackToCall [] fb).map (·.id))

/-- The ids `get_active_calls` actually yields against an empty ledger. -/
def recordIds (page : Page) : List Str :=
  (get_active_calls page []).map (·.id)

/-! ## Stability wait (`wait_size_stable`, main.py lines 105-127)

One loop iteration per second of budget: a HEAD probe (which may raise, or
return a status and an optional `Content-Length` header value), the
last/counter update, then `time.sleep(1); waited += 1`.  An early success
returns before the sleep of its iteration. -/

/-- Outcome of one `session.head` probe. -/
inductive ProbeResult
  | exn
  | resp (status : Nat) (contentLength : Option Str)

/-- `int(size) if size and size.isdigit() else None` applied to the
`Content-Length` header (ASCII digits). -/
def toNatDigits (s : Str) : Nat :=
  s.foldl (fun a c => a * 10 + (c.toNat - '0'.toNat)) 0

/-- Parse the optional `Content-Length` header the way the source does. -/
def parseSize : Option Str → Option Nat
  | none => none
  | some s => if s ≠ [] ∧ s.all Char.isDigit then some (toNatDigits s) else none

/-- The `last` / `same` loop state of `wait_size_stable`. -/
structure WssState where
  last : Option Nat
  same : Nat
deriving DecidableEq

/-- Outcome of processing one probe: an early `return size`, or the state for
the next iteration. -/
inductive StepOut
  | ret (n : Nat)
  | cont (s : WssState)
deriving DecidableEq

/-- Is the step a continuation (no early return)? -/
def isCont : StepOut → Bool
  | .ret _ => false
  | .cont _ => true

/-- One iteration body of `wait_size_stable`: on a transport error nothing
changes; on a 200/206 response, a truthy size equal to `last` bumps the
counter (returning once it reaches `stable_checks`), anything else resets the
counter to zero; `last` is then set to the parsed size. -/
def wssObserve (stable_checks : Nat) (st : WssState) (p : ProbeResult) : StepOut :=
  match p with
  | .exn => .cont st
  | .resp status cl =>
    if status = 200 ∨ status = 206 then
      match parseSize cl with
      | some n =>
        if n ≠ 0 ∧ st.last = some n then
          if st.same + 1 ≥ stable_checks then .ret n
          else .cont ⟨some n, st.same + 1⟩
        else .cont ⟨some n, 0⟩
      | none => .cont ⟨none, 0⟩
    else .cont st

/-- Run the loop with the given budget, also counting probes made and
one-second sleeps taken (the instrumentation records how many iterations ran;
the source returns only the `Option Nat`). -/
def wssGo (probe : Nat → ProbeResult) (stable_checks : Nat) (st : WssState) (t : Nat) :
    Nat → Option Nat × Nat × Nat
  | 0 => (st.last, 0, 0)
  | r + 1 =>
    match wssObserve stable_checks st (probe t) with
    | .ret n => (some n, 1, 0)
    | .cont st' =>
      let rest := wssGo probe stable_checks st' (t + 1) r
      (rest.1, rest.2.1 + 1, rest.2.2 + 1)

/-- `wait_size_stable(session, url, headers, stable_checks, max_wait)` with
the probe outcomes supplied by the environment: the returned size. -/
def wait_size_stable (probe : Nat → ProbeResult) (stable_checks max_wait : Nat) : Option Nat :=
  (wssGo probe stable_checks ⟨none, 0⟩ 0 max_wait).1

/-- The `(last, same)` state before iteration `t`, assuming no early return
happened (on an early-return step the state is left unchanged; the theorems
only use this under a no-early-return hypothesis). -/
def wssStateAt (probe : Nat → ProbeResult) (stable_checks : Nat) : Nat → WssState
  | 0 => ⟨none, 0⟩
  | t + 1 =>
    match wssObserve stable_checks (wssStateAt probe stable_checks t) (probe t) with
    | .cont s => s
    | .ret _ => wssStateAt probe stable_checks t

/-! ## Download-and-verify loop (`download_audio_via_api`, main.py lines 541-604)

The environment fixes the `Content-Type` of each GET round and the ffprobe
duration of the file written by each round (round 0 is the initial download,
round `i ≥ 1` the i-th re-download).  The GETs themselves are assumed to
succeed; the interim `wait_size_stable` call's result is discarded by the
source and is not modelled.  The result is the round index of the file that is
returned (its body is the returned audio) paired with the backoff sleeps
taken, or `none` for the initial non-audio rejection. -/

/-- The duration-retry loop (`for attempt in range(max_attempts)`): probe the
current file's duration; if it reaches the 6.5s target return it, otherwise
sleep `2 * (attempt + 1)` seconds and re-download, and after the last attempt
return the most recent file anyway. -/
def dlLoop (dur : Nat → ℚ) : Nat → Nat → Nat × List Nat
  | i, 0 => (i, [])
  | i, r + 1 =>
    if dur i ≥ 13 / 2 then (i, [])
    else
      let rest := dlLoop dur (i + 1) r
      (rest.1, 2 * (i + 1) :: rest.2)

/-- `download_audio_via_api`: reject the initial response if its
`Content-Type` does not contain `audio` (the only content-type check), then
run the duration-retry loop with `max_attempts = 5`. -/
def download_audio_via_api (cts : Nat → Str) (dur : Nat → ℚ) : Option (Nat × List Nat) :=
  if substrOf (str "audio") (cts 0) then some (dlLoop dur 0 5) else none

/-! ## Delivery (`send_to_telegram_sync`, messaging.py lines 274-318) -/

/-- Environment for one delivery attempt: whether the ffmpeg conversion and
padding steps succeed (on failure each returns its input file), whether
obtaining the Telethon client or `send_file` raises, and the truthiness of the
returned message object. -/
structure TgEnv where
  convertOk : Bool
  padOk : Bool
  clientRaises : Bool
  sendRaises : Bool
  sentHandle : Bool

/-- `os.path.splitext(s)[0]`: the name up to the last dot, if any. -/
def splitextBase (s : Str) : Str :=
  if '.' ∈ s then (((s.reverse.dropWhile (fun c => decide (c ≠ '.'))).drop 1).reverse)
  else s

/-- `convert_to_ogg_opus` (messaging.py lines 146-171): on success the `.ogg`
sibling, on failure the input file. -/
def convert_to_ogg_opus (ok : Bool) (input : Str) : Str :=
  if ok then splitextBase input ++ str ".ogg" else input

/-- `pad_audio_tail` (messaging.py lines 174-207): on success the
`_padded.ogg` sibling, on failure the input file. -/
def pad_audio_tail (ok : Bool) (input : Str) : Str :=
  if ok then splitextBase input ++ str "_padded.ogg" else input

/-- Result of `send_to_telegram_sync`: the except-path (`return False`, no
cleanup), or completion with `bool(sent)` and the set of files removed by the
cleanup loop over `{audio_file, ogg_file}`. -/
inductive TgOutcome
  | raised
  | done (sent : Bool) (removed : List Str)
deriving DecidableEq

/-- `send_to_telegram_sync`: convert, pad, send; any exception from the client
or `send_file` hits the `except` branch, which returns `False` without
removing any file; otherwise the cleanup loop removes the audio file and the
final ogg file, then `bool(sent)` is returned. -/
def send_to_telegram_sync (env : TgEnv) (audio_file : Str) : TgOutcome :=
  let ogg1 := convert_to_ogg_opus env.convertOk audio_file
  let ogg2 := pad_audio_tail env.padOk ogg1
  if env.clientRaises ∨ env.sendRaises then .raised
  else .done env.sentHandle ([audio_file, ogg2].dedup)

/-- Was the downloaded audio file cleaned up by this delivery attempt? -/
def cleanedAudio (o : TgOutcome) (audio_file : Str) : Bool :=
  match o with
  | .raised => false
  | .done _ removed => audio_file ∈ removed

/-! ## Monitoring loop (`monitor_calls_with_recovery`, main.py lines 646-740)

One `while is_monitoring` iteration is a cycle.  The state holds the globals
the loop mutates: whether `driver_instance` is set, the
`connection_issue_reported` flag, `consecutive_errors`, and the
`processed_calls` ledger.  The environment of a cycle fixes: whether
`setup_driver` succeeds (when the init path runs), the outcome of each login
attempt, the dashboard fetch outcome, and the page the extractor then reads.
Observable effects are recorded as events.  `notify_connection_lost` sets
`connection_issue_reported = True` as a side effect;
`notify_connection_restored` does not touch the flag.  The model covers the
paths the loop's own handlers define; an unexpected exception inside the
steady-state block (outer handler, lines 730-738) is not modelled — it
dispatches nothing and only grows `consecutive_errors`. -/

/-- Events the loop emits: connection-lost and connection-restored admin
notifications, the instant new-call notification, and handing a call to one
`process_single_call` invocation via `executor.submit`. -/
inductive Event
  | lost
  | restored
  | notifyNew (id : Str)
  | dispatch (id : Str)
deriving DecidableEq

/-- Outcome of one login attempt inside `login_to_orangecarrier`: an
exception, landing back on the login page (no exception, no success), or a
post-login URL away from the login page. -/
inductive AttemptOutcome
  | exn
  | stay
  | ok
deriving DecidableEq

/-- `login_to_orangecarrier` with `remaining` attempts left, attempt index
`i`: on success notify "connection restored" and return `True`; on an
exception at the final attempt notify "connection lost" (which sets the
`connection_issue_reported` flag); otherwise retry.  Returns
(success, connection_issue_reported, events). -/
def loginGo (f : Nat → AttemptOutcome) (cir : Bool) : Nat → Nat → Bool × Bool × List Event
  | _, 0 => (false, cir, [])
  | i, r + 1 =>
    match f i with
    | .ok => (true, cir, [.restored])
    | .stay => loginGo f cir (i + 1) r
    | .exn =>
      if r = 0 then (false, true, [.lost])
      else loginGo f cir (i + 1) r

/-- `login_to_orangecarrier(driver)` with the default `max_retries = 3`. -/
def login_to_orangecarrier (f : Nat → AttemptOutcome) (cir : Bool) : Bool × Bool × List Event :=
  loginGo f cir 0 3

/-- Dashboard-fetch outcome at the top of the `try` block: the fetch lands on
the dashboard, it is silently redirected to the login page (session expiry),
or `driver.get` / the URL check raises. -/
inductive FetchOutcome
  | ok
  | expired
  | err
deriving DecidableEq

/-- Environment of one cycle. -/
structure CycleEnv where
  initSetupOk : Bool
  initLogin : Nat → AttemptOutcome
  fetch : FetchOutcome
  relogin : Nat → AttemptOutcome
  page : Page

/-- The globals the loop mutates. -/
structure MonState where
  hasDriver : Bool
  cir : Bool
  errors : Nat
  processed : List Str

/-- The per-call dispatch loop (main.py lines 716-720): for each new call,
add its id to `processed_calls`, send the instant notification, and submit
one `process_single_call` job.  Returns the grown ledger and the events. -/
def dispatchAll (processed : List Str) : List CallRecord → List Str × List Event
  | [] => (processed, [])
  | c :: rest =>
    let step := dispatchAll (processed.insert c.id) rest
    (step.1, .notifyNew c.id :: .dispatch c.id :: step.2)

/-- The steady-state tail of a cycle (main.py lines 701-725): read the page,
emit "connection restored" if an issue was pending and clear the flag, filter
new calls against the ledger, dispatch them, and reset the error counter. -/
def steadyPhase (s : MonState) (page : Page) : MonState × List Event :=
  let calls := get_active_calls page s.processed
  let evsR : List Event := if s.cir then [.restored] else []
  let newCalls := calls.filter (fun c => decide (c.id ∉ s.processed))
  let d := dispatchAll s.processed newCalls
  (⟨s.hasDriver, false, 0, d.1⟩, evsR ++ d.2)

/-- The fetch-and-recover part of a cycle (main.py lines 667-725), entered
with a driver present. -/
def fetchPhase (s : MonState) (e : CycleEnv) : MonState × List Event :=
  match e.fetch with
  | .ok => steadyPhase s e.page
  | .expired =>
    let lost1 : List Event := if s.cir then [] else [.lost]
    let login := login_to_orangecarrier e.relogin true
    if login.1 then
      let tail := steadyPhase ⟨s.hasDriver, false, 0, s.processed⟩ e.page
      (tail.1, lost1 ++ login.2.2 ++ tail.2)
    else
      let errs := s.errors + 1
      if errs ≥ 5 then
        (⟨false, true, errs, s.processed⟩, lost1 ++ login.2.2 ++ [.lost])
      else
        (⟨s.hasDriver, login.2.1, errs, s.processed⟩, lost1 ++ login.2.2)
  | .err =>
    let errs := s.errors + 1
    let lost1 : List Event := if s.cir then [] else [.lost]
    if errs ≥ 5 then
      (⟨false, true, errs, s.processed⟩, lost1 ++ [.lost])
    else
      (⟨s.hasDriver, true, errs, s.processed⟩, lost1)

/-- The driver-initialisation head of a cycle (main.py lines 656-665 together
with `initialize_driver_with_login`, lines 178-194): on setup or login
failure, notify "connection lost", drop the driver and count an error; on
success clear the flag, emit a second "connection restored" if an issue had
been pending before the cycle, reset the error counter, and continue with the
fetch. -/
def initPhase (s : MonState) (e : CycleEnv) : MonState × List Event :=
  let previous := s.cir
  if e.initSetupOk then
    let login := login_to_orangecarrier e.initLogin s.cir
    if login.1 then
      let evs2 : List Event := if previous then [.restored] else []
      let tail := fetchPhase ⟨true, false, 0, s.processed⟩ e
      (tail.1, login.2.2 ++ evs2 ++ tail.2)
    else
      (⟨false, true, s.errors + 1, s.processed⟩, login.2.2 ++ [.lost])
  else
    (⟨false, true, s.errors + 1, s.processed⟩, [.lost])

/-- One full cycle of `monitor_calls_with_recovery`. -/
def monitorCycle (s : MonState) (e : CycleEnv) : MonState × List Event :=
  if s.hasDriver then fetchPhase s e else initPhase s e

/-- `monitor_calls_with_recovery` run over a finite sequence of cycles. -/
def monitor_calls_with_recovery (s : MonState) : List CycleEnv → MonState × List Event
  | [] => (s, [])
  | e :: es =>
    let c := monitorCycle s e
    let rest := monitor_calls_with_recovery c.1 es
    (rest.1, c.2 ++ rest.2)

/-- Number of `process_single_call` submissions for a given id. -/
def countDispatch (id : Str) (evs : List Event) : Nat :=
  evs.countP (fun ev => decide (ev = Event.dispatch id))

/-- Number of "connection restored" notifications. -/
def countRestored (evs : List Event) : Nat :=
  evs.countP (fun ev => decide (ev = Event.restored))

/-! ## Concrete test data for witnesses and counterexamples -/

/-- A play button whose `onclick` is `playCall("1234567890.1")`. -/
def sampleBtn : BtnInfo := ⟨some (str "playCall(\x221234567890.1\x22)"), []⟩

/-- A well-formed row: five fields, valid token; id `A_1_2`. -/
def sampleRow : PageRow :=
  ⟨[str "A", str "1", str "2", str "00:05", str "0.10"], some sampleBtn, some []⟩

/-- A play button whose `onclick` is `playCall("123.4")`: pattern 1 extracts
the token `123.4`, which fails the `^\d{10,}\.\d+$` validation. -/
def badBtn : BtnInfo := ⟨some (str "playCall(\x22123.4\x22)"), []⟩

/-- A row with five valid fields but an invalid extracted token. -/
def badRow : PageRow :=
  ⟨[str "A", str "1", str "2", str "00:05", str "0.10"], some badBtn, some []⟩

/-- A snapshot showing the same row (hence the same id) twice. -/
def dupPage : Page := ⟨[[sampleRow, sampleRow]], []⟩

/-- A snapshot showing the row once. -/
def onePage : Page := ⟨[[sampleRow]], []⟩

/-- A cycle environment with a given page: setup succeeds, every login
attempt succeeds, the dashboard fetch lands on the dashboard. -/
def okEnv (page : Page) : CycleEnv := ⟨true, fun _ => .ok, .ok, fun _ => .ok, page⟩

/-! # Theorems -/

/-! ## Stability wait: C7, C2, C6 -/

lemma wssObserve_const_first (k N status : Nat) (ds : Str)
    (hstatus : status = 200 ∨ status = 206) (hparse : parseSize (some ds) = some N) :
    wssObserve k ⟨none, 0⟩ (.resp status (some ds)) = .cont ⟨some N, 0⟩ := by
  simp only [wssObserve, if_pos hstatus, hparse]
  simp

lemma wssObserve_const_hit (k N j status : Nat) (ds : Str)
    (hstatus : status = 200 ∨ status = 206) (hparse : parseSize (some ds) = some N)
    (hN : 0 < N) :
    wssObserve k ⟨some N, j⟩ (.resp status (some ds)) =
      if j + 1 ≥ k then .ret N else .cont ⟨some N, j + 1⟩ := by
  simp only [wssObserve, if_pos hstatus, hparse]
  simp [hN.ne']

lemma wssGo_const (ds : Str) (N k status : Nat)
    (hstatus : status = 200 ∨ status = 206) (hparse : parseSize (some ds) = some N)
    (hN : 0 < N) :
    ∀ r j t, j + 1 ≤ k → k - j ≤ r →
      wssGo (fun _ => .resp status (some ds)) k ⟨some N, j⟩ t r =
        (some N, k - j, k - j - 1) := by
  intro r
  induction r with
  | zero => intro j t hj hr; omega
  | succ r ih =>
    intro j t hj hr
    simp only [wssGo, wssObserve_const_hit k N j status ds hstatus hparse hN]
    by_cases hk : j + 1 ≥ k
    · have hjk : j + 1 = k := by omega
      rw [if_pos hk]
      simp only []
      have h1 : k - j = 1 := by omega
      simp [h1]
    · rw [if_neg hk]
      simp only []
      rw [ih (j + 1) (t + 1) (by omega) (by omega)]
      have h2 : k - (j + 1) + 1 = k - j := by omega
      have h3 : k - (j + 1) - 1 + 1 = k - j - 1 := by omega
      simp [h2, h3]

/-- C2 (amended): with a constant successful probe reporting a positive size
`N`, `wait_size_stable` with `stable_checks = k ≥ 1` and `max_wait ≥ k + 1`
returns `N` after exactly `k + 1` probes (one more than the spec's `k`),
having slept `k` seconds — so the elapsed-time bound `≤ k` seconds holds but
the probe count is `k + 1`, not `k`. -/
theorem wait_size_stable_constant_size (ds : Str) (N stable_checks max_wait status : Nat)
    (hstatus : status = 200 ∨ status = 206)
    (hparse : parseSize (some ds) = some N) (hN : 0 < N)
    (hk : 1 ≤ stable_checks) (hmw : stable_checks + 1 ≤ max_wait) :
    wssGo (fun _ => .resp status (some ds)) stable_checks ⟨none, 0⟩ 0 max_wait
        = (some N, stable_checks + 1, stable_checks) ∧
    wait_size_stable (fun _ => .resp status (some ds)) stable_checks max_wait = some N := by
  obtain ⟨m, rfl⟩ : ∃ m, max_wait = m + 1 := ⟨max_wait - 1, by omega⟩
  have hmain :
      wssGo (fun _ => .resp status (some ds)) stable_checks ⟨none, 0⟩ 0 (m + 1)
        = (some N, stable_checks + 1, stable_checks) := by
    simp only [wssGo, wssObserve_const_first stable_checks N status ds hstatus hparse]
    rw [wssGo_const ds N stable_checks status hstatus hparse hN m 0 1 (by omega) (by omega)]
    have h1 : stable_checks - 0 = stable_checks := by omega
    have h2 : stable_checks - 0 - 1 + 1 = stable_checks := by omega
    have h3 : stable_checks - 1 + 1 = stable_checks := by omega
    simp [h1, h2, h3]
  exact ⟨hmain, by simp [wait_size_stable, hmain]⟩

/-- C2 (counterexample): with the constant probe reporting `Content-Length`
50000 and `stable_checks = 6` (the source's initial wait), the function does
not return after 6 probes as claimed: it makes 7 probes before returning. -/
theorem wait_size_stable_probe_count_counterexample :
    (wssGo (fun _ => .resp 200 (some (str "50000"))) 6 ⟨none, 0⟩ 0 120).2.1 ≠ 6 := by
  decide

/-- Witness for `wait_size_stable_constant_size` at size 7, `stable_checks =
2`, `max_wait = 10`. -/
theorem wait_size_stable_constant_size_witness :
    wssGo (fun _ => .resp 200 (some (str "7"))) 2 ⟨none, 0⟩ 0 10 = (some 7, 3, 2) ∧
    wait_size_stable (fun _ => .resp 200 (some (str "7"))) 2 10 = some 7 :=
  wait_size_stable_constant_size (str "7") 7 2 10 200 (Or.inl rfl) (by decide) (by decide)
    (by decide) (by decide)

lemma wssGo_noret (probe : Nat → ProbeResult) (sc : Nat) :
    ∀ r t,
      (∀ u < r, isCont (wssObserve sc (wssStateAt probe sc (t + u)) (probe (t + u))) = true) →
      wssGo probe sc (wssStateAt probe sc t) t r = ((wssStateAt probe sc (t + r)).last, r, r) := by
  intro r
  induction r with
  | zero => intro t h; simp [wssGo]
  | succ r ih =>
    intro t h
    have h0 := h 0 (by omega)
    rw [Nat.add_zero] at h0
    cases hobs : wssObserve sc (wssStateAt probe sc t) (probe t) with
    | ret n => rw [hobs] at h0; simp [isCont] at h0
    | cont s' =>
      have hst : wssStateAt probe sc (t + 1) = s' := by
        simp only [wssStateAt, hobs]
      simp only [wssGo, hobs]
      rw [← hst, ih (t + 1) (fun u hu => by
        have := h (u + 1) (by omega)
        rwa [show t + (u + 1) = t + 1 + u by omega] at this)]
      have : t + 1 + r = t + (r + 1) := by omega
      simp [this]

lemma wssStateAt_exn (probe : Nat → ProbeResult) (sc : Nat)
    (h : ∀ t, probe t = .exn) : ∀ t, wssStateAt probe sc t = ⟨none, 0⟩ := by
  intro t
  induction t with
  | zero => rfl
  | succ t ih => simp only [wssStateAt, h t, wssObserve, ih]

/-- C6: if no iteration takes the early-return branch (the
consecutive-identical-size counter never reaches `stable_checks`),
`wait_size_stable` runs for exactly `max_wait` probes and `max_wait` sleeps
and then returns the last-tracked size; in particular if every probe raised,
it returns `None`. -/
theorem wait_size_stable_timeout (probe : Nat → ProbeResult) (sc mw : Nat) :
    ((∀ t < mw, isCont (wssObserve sc (wssStateAt probe sc t) (probe t)) = true) →
      wssGo probe sc ⟨none, 0⟩ 0 mw = ((wssStateAt probe sc mw).last, mw, mw)) ∧
    ((∀ t, probe t = .exn) → wait_size_stable probe sc mw = none) := by
  constructor
  · intro h
    have := wssGo_noret probe sc mw 0 (fun u hu => by simpa using h u hu)
    simpa using this
  · intro h
    have hc : ∀ t < mw, isCont (wssObserve sc (wssStateAt probe sc t) (probe t)) = true := by
      intro t _
      rw [h t]
      simp [wssObserve, isCont]
    have h2 := wssGo_noret probe sc mw 0 (fun u hu => by simpa using hc u hu)
    have h0 : wssStateAt probe sc 0 = ⟨none, 0⟩ := rfl
    rw [h0] at h2
    simp only [Nat.zero_add] at h2
    simp [wait_size_stable, h2, wssStateAt_exn probe sc h mw]

/-- Witness for `wait_size_stable_timeout`: a probe whose size alternates
between 1 and 2 never stabilises; with `stable_checks = 5`, `max_wait = 3`
the run makes 3 probes and 3 sleeps and returns the last size; and the
all-failures probe yields `none`. -/
theorem wait_size_stable_timeout_witness :
    wssGo (fun t => if t % 2 = 0 then ProbeResult.resp 200 (some (str "1"))
        else ProbeResult.resp 200 (some (str "2"))) 5 ⟨none, 0⟩ 0 3 = (some 1, 3, 3) ∧
    wait_size_stable (fun _ => ProbeResult.exn) 5 4 = none := by
  constructor
  · have := (wait_size_stable_timeout (fun t => if t % 2 = 0 then
        ProbeResult.resp 200 (some (str "1"))
        else ProbeResult.resp 200 (some (str "2"))) 5 3).1 (by decide)
    rw [this]
    decide
  · exact (wait_size_stable_timeout (fun _ => ProbeResult.exn) 5 4).2 (fun _ => rfl)

/-- C7: inside `wait_size_stable`, a transport error leaves both the
last-seen size and the counter unchanged, while a successful response whose
parsed size differs from the last-seen size resets the counter to zero (and
records the new size as last-seen). -/
theorem wss_error_resets_nothing_change_resets_counter (stable_checks : Nat) (st : WssState) :
    wssObserve stable_checks st .exn = .cont st ∧
    (∀ status cl, (status = 200 ∨ status = 206) → parseSize cl ≠ st.last →
      wssObserve stable_checks st (.resp status cl) = .cont ⟨parseSize cl, 0⟩) := by
  refine ⟨rfl, fun status cl hstatus hne => ?_⟩
  simp only [wssObserve, if_pos hstatus]
  cases hp : parseSize cl with
  | none => simp
  | some n =>
    rw [hp] at hne
    have : st.last ≠ some n := fun h => hne h.symm
    simp [this]

/-- Witness for `wss_error_resets_nothing_change_resets_counter`. -/
theorem wss_error_resets_nothing_witness :
    wssObserve 5 ⟨some 3, 2⟩ (.resp 200 (some (str "7"))) = .cont ⟨some 7, 0⟩ :=
  (wss_error_resets_nothing_change_resets_counter 5 ⟨some 3, 2⟩).2 200 (some (str "7"))
    (Or.inl rfl) (by decide)

/-! ## Download-and-verify loop: C3, C10 -/

lemma dlLoop_short (dur : Nat → ℚ) :
    ∀ r i, (∀ j < r, dur (i + j) < 13 / 2) →
      dlLoop dur i r = (i + r, (List.range r).map (fun j => 2 * (i + j + 1))) := by
  intro r
  induction r with
  | zero => intro i h; simp [dlLoop]
  | succ r ih =>
    intro i h
    have h0 : ¬ (13 / 2 ≤ dur i) := by
      have := h 0 (by omega)
      rw [Nat.add_zero] at this
      exact not_le.mpr this
    simp only [dlLoop, ge_iff_le, if_neg h0]
    rw [ih (i + 1) (fun j hj => by
      have := h (j + 1) (by omega)
      rwa [show i + (j + 1) = i + 1 + j by omega] at this)]
    rw [List.range_succ_eq_map]
    simp only [List.map_cons, List.map_map]
    refine congrArg₂ Prod.mk (by omega) (congrArg₂ List.cons (by norm_num) ?_)
    apply List.map_congr_left
    intro j _
    simp only [Function.comp_apply]
    omega

lemma download_all_short (cts : Nat → Str) (dur : Nat → ℚ)
    (haudio : substrOf (str "audio") (cts 0) = true)
    (hshort : ∀ i < 5, dur i < 13 / 2) :
    download_audio_via_api cts dur = some (5, [2, 4, 6, 8, 10]) := by
  simp only [download_audio_via_api, haudio, if_true]
  rw [dlLoop_short dur 5 0 (fun j hj => by simpa using hshort j hj)]
  decide

/-- C3: if the initial response is audio and every probed duration stays
below the 6.5-second target, the retry loop of `download_audio_via_api` runs
exactly `max_attempts = 5` re-download rounds (so six GETs in total counting
the initial download), sleeps `2 × attempt_number` seconds — `[2,4,6,8,10]` —
between rounds, and returns the file written by the final round rather than
`None`. -/
theorem download_retry_bound (cts : Nat → Str) (dur : Nat → ℚ)
    (haudio : substrOf (str "audio") (cts 0) = true)
    (hshort : ∀ i < 5, dur i < 13 / 2) :
    download_audio_via_api cts dur = some (5, [2, 4, 6, 8, 10]) :=
  download_all_short cts dur haudio hshort

/-- Witness for `download_retry_bound`: audio first response, all durations
zero. -/
theorem download_retry_bound_witness :
    download_audio_via_api (fun _ => str "audio/wav") (fun _ => 0)
      = some (5, [2, 4, 6, 8, 10]) :=
  download_retry_bound (fun _ => str "audio/wav") (fun _ => 0) (by decide)
    (fun _ _ => by norm_num)

/-- C10: only the first GET's `Content-Type` is ever inspected — the result
is unchanged under any change to the content types of rounds ≥ 1 — and when
the first response is audio but every re-download returns a non-audio body
(and durations stay short), the function still returns the body written by
re-download round 5. -/
theorem download_no_ct_check_on_retries :
    (∀ cts cts' : Nat → Str, ∀ dur : Nat → ℚ, cts 0 = cts' 0 →
      download_audio_via_api cts dur = download_audio_via_api cts' dur) ∧
    (∀ cts : Nat → Str, ∀ dur : Nat → ℚ,
      substrOf (str "audio") (cts 0) = true →
      (∀ i, 1 ≤ i → substrOf (str "audio") (cts i) = false) →
      (∀ i < 5, dur i < 13 / 2) →
      download_audio_via_api cts dur = some (5, [2, 4, 6, 8, 10])) := by
  constructor
  · intro cts cts' dur h
    simp only [download_audio_via_api, h]
  · intro cts dur haudio _ hshort
    exact download_all_short cts dur haudio hshort

/-- Witness for `download_no_ct_check_on_retries`: the first response is
`audio/wav`, every later one is `text/html`, yet round 5's body is returned. -/
theorem download_no_ct_check_on_retries_witness :
    download_audio_via_api (fun i => if i = 0 then str "audio/wav" else str "text/html")
        (fun _ => 0) = some (5, [2, 4, 6, 8, 10]) :=
  download_no_ct_check_on_retries.2
    (fun i => if i = 0 then str "audio/wav" else str "text/html") (fun _ => 0)
    (by decide)
    (fun i hi => by
      show substrOf (str "audio") (if i = 0 then str "audio/wav" else str "text/html") = false
      rw [if_neg (by omega : ¬ i = 0)]
      decide)
    (fun _ _ => by norm_num)

/-! ## Delivery cleanup: C8 -/

/-- C8 (counterexample): a delivery attempt in which `send_file` raises (a
failed delivery) returns through the `except` branch and does not remove the
downloaded audio file, contradicting "cleaned up regardless of the delivery
outcome". -/
theorem send_cleanup_counterexample :
    cleanedAudio
      (send_to_telegram_sync ⟨true, true, false, true, false⟩ (str "call_X.wav"))
      (str "call_X.wav") = false := by
  decide

/-- C8 (amended): the downloaded audio file is cleaned up whenever the send
attempt completes without raising — both when the returned handle is truthy
(success) and when it is falsy (failure) — but if obtaining the client or
sending raises, the function returns `False` through the `except` branch
without any cleanup. -/
theorem send_cleanup_characterization (audio_file : Str) :
    (∀ env : TgEnv, env.clientRaises = false → env.sendRaises = false →
      cleanedAudio (send_to_telegram_sync env audio_file) audio_file = true) ∧
    (∀ env : TgEnv, env.clientRaises = true ∨ env.sendRaises = true →
      send_to_telegram_sync env audio_file = .raised) := by
  constructor
  · intro env hc hs
    simp [send_to_telegram_sync, hc, hs, cleanedAudio, List.mem_dedup]
  · intro env h
    have : env.clientRaises = true ∨ env.sendRaises = true := h
    simp only [send_to_telegram_sync]
    rw [if_pos (by rcases this with h | h <;> simp [h])]

/-- Witness for `send_cleanup_characterization`: a non-raising failed send
(falsy handle) still cleans up, and a raising send does not. -/
theorem send_cleanup_characterization_witness :
    cleanedAudio
      (send_to_telegram_sync ⟨true, true, false, false, false⟩ (str "call_1.wav"))
      (str "call_1.wav") = true ∧
    send_to_telegram_sync ⟨true, true, true, false, true⟩ (str "call_1.wav") = .raised :=
  ⟨(send_cleanup_characterization (str "call_1.wav")).1 ⟨true, true, false, false, false⟩ rfl rfl,
   (send_cleanup_characterization (str "call_1.wav")).2 ⟨true, true, true, false, true⟩ (Or.inl rfl)⟩

/-! ## Call identifier: C9 -/

lemma append_sep_inj (sep : Char) :
    ∀ a₁ a₂ r₁ r₂ : Str, sep ∉ a₁ → sep ∉ a₂ →
      a₁ ++ sep :: r₁ = a₂ ++ sep :: r₂ → a₁ = a₂ ∧ r₁ = r₂ := by
  intro a₁
  induction a₁ with
  | nil =>
    intro a₂ r₁ r₂ _ h₂ heq
    cases a₂ with
    | nil => simpa using heq
    | cons y ys =>
      simp only [List.nil_append, List.cons_append, List.cons.injEq] at heq
      exact absurd (heq.1 ▸ List.mem_cons_self y ys) (heq.1 ▸ h₂)
  | cons x xs ih =>
    intro a₂ r₁ r₂ h₁ h₂ heq
    cases a₂ with
    | nil =>
      simp only [List.cons_append, List.nil_append, List.cons.injEq] at heq
      exact absurd (heq.1 ▸ List.mem_cons_self x xs) (fun hm => h₁ (heq.1 ▸ hm))
    | cons y ys =>
      simp only [List.cons_append, List.cons.injEq] at heq
      have tail := ih ys r₁ r₂ (fun hm => h₁ (List.mem_cons_of_mem x hm))
        (fun hm => h₂ (heq.1 ▸ List.mem_cons_of_mem y hm)) heq.2
      exact ⟨by rw [heq.1, tail.1], tail.2⟩

/-- C9 (counterexample): two distinct calls — termination `A_1`, DID `2`
versus termination `A`, DID `1_2`, same CLI `X` (they differ in termination
leg while sharing a caller id) — receive the same derived identifier. -/
theorem mkCallId_collision_counterexample :
    mkCallId (str "A_1") (str "2") (str "X") = mkCallId (str "A") (str "1_2") (str "X") ∧
    ¬ (str "A_1" = str "A" ∧ str "2" = str "1_2") := by
  decide

/-- C9 (amended): the id of every extracted record is the deterministic
concatenation `termination_did_cli`; it distinguishes distinct calls provided
the termination and destination fields contain no underscore (without that
proviso the concatenation is not injective). -/
theorem mkCallId_deterministic_inj :
    (∀ (processed : List Str) (r : PageRow) (c : CallRecord),
      rowToCall processed r = some c → c.id = mkCallId c.termination c.did c.cli) ∧
    (∀ t₁ d₁ c₁ t₂ d₂ c₂ : Str, '_' ∉ t₁ → '_' ∉ t₂ → '_' ∉ d₁ → '_' ∉ d₂ →
      mkCallId t₁ d₁ c₁ = mkCallId t₂ d₂ c₂ → t₁ = t₂ ∧ d₁ = d₂ ∧ c₁ = c₂) := by
  constructor
  · intro processed r c h
    simp only [rowToCall] at h
    repeat' split at h
    any_goals exact Option.noConfusion h
    injection h with h
    subst h
    rfl
  · intro t₁ d₁ c₁ t₂ d₂ c₂ ht₁ ht₂ hd₁ hd₂ heq
    have heq' : t₁ ++ '_' :: (d₁ ++ '_' :: c₁) = t₂ ++ '_' :: (d₂ ++ '_' :: c₂) := by
      simpa [mkCallId, List.append_assoc] using heq
    have h1 := append_sep_inj '_' t₁ t₂ (d₁ ++ '_' :: c₁) (d₂ ++ '_' :: c₂) ht₁ ht₂ heq'
    have h2 := append_sep_inj '_' d₁ d₂ c₁ c₂ hd₁ hd₂ h1.2
    exact ⟨h1.1, h2.1, h2.2⟩

/-- Witness for `mkCallId_deterministic_inj`: the sample row's record id is
the concatenation of its fields, and injectivity applied at underscore-free
fields. -/
theorem mkCallId_deterministic_inj_witness :
    (str "A_1_2" : Str) = mkCallId (str "A") (str "1") (str "2") ∧
    (str "A" = str "A" ∧ str "1" = str "1" ∧ str "X" = str "X") := by
  constructor
  · have h := mkCallId_deterministic_inj.1 [] sampleRow
      ⟨str "A_1_2", str "A", str "1", str "2", str "00:05", str "0.10",
        some (str "1234567890.1")⟩ (by decide)
    simpa using h
  · exact mkCallId_deterministic_inj.2 (str "A") (str "1") (str "X")
      (str "A") (str "1") (str "X") (by decide) (by decide) (by decide) (by decide) rfl

/-! ## Token validation: C4 -/

lemma rowToCall_invalid_none (processed : List Str) (r : PageRow) (b : BtnInfo) (u : Str)
    (hb : r.button = some b) (hext : extractUuidPrimary b r.rowAttrs = some u)
    (hval : validUuid u = false) : rowToCall processed r = none := by
  simp [rowToCall, hb, hext, hval]

lemma fallbackToCall_invalid_none (processed : List Str) (fb : FallbackBtn) (u : Str)
    (hext : extractUuidFallback fb.btn = some u) (hval : validUuid u = false) :
    fallbackToCall processed fb = none := by
  simp [fallbackToCall, hext, hval]

lemma get_active_calls_drop_none (page page' : Page) (processed : List Str)
    (rows1 rows2 : List PageRow) (r : PageRow)
    (hnone : ∀ p : List Str, rowToCall p r = none)
    (htab : page.tables.flatten = rows1 ++ r :: rows2)
    (htab' : page'.tables.flatten = rows1 ++ rows2)
    (hbtn : page.buttons = page'.buttons) :
    get_active_calls page processed = get_active_calls page' processed := by
  unfold get_active_calls
  rw [htab, htab', hbtn, List.filterMap_append, List.filterMap_append,
    List.filterMap_cons_none (hnone processed)]

lemma monitorCycle_page_congr (s : MonState) (io : Bool) (il rl : Nat → AttemptOutcome)
    (f : FetchOutcome) (page page' : Page)
    (h : ∀ p, get_active_calls page p = get_active_calls page' p) :
    monitorCycle s ⟨io, il, f, rl, page⟩ = monitorCycle s ⟨io, il, f, rl, page'⟩ := by
  have hsteady : ∀ s' : MonState, steadyPhase s' page = steadyPhase s' page' := by
    intro s'
    unfold steadyPhase
    rw [h]
  unfold monitorCycle initPhase fetchPhase
  simp only [hsteady]

/-- C4: an extracted token failing `^\d{10,}\.\d+$` makes the row be dropped
entirely (in both extraction strategies): the row yields no record, the
returned call list is exactly the one obtained without that row, and hence an
entire monitoring cycle — including its ledger additions and dispatches — is
unchanged by the row's presence, even when all five display fields are valid. -/
theorem token_validation_drops_row :
    (∀ (processed : List Str) (r : PageRow) (b : BtnInfo) (u : Str),
      r.button = some b → extractUuidPrimary b r.rowAttrs = some u →
      validUuid u = false → rowToCall processed r = none) ∧
    (∀ (processed : List Str) (fb : FallbackBtn) (u : Str),
      extractUuidFallback fb.btn = some u → validUuid u = false →
      fallbackToCall processed fb = none) ∧
    (∀ (page page' : Page) (processed : List Str) (rows1 rows2 : List PageRow)
      (r : PageRow) (b : BtnInfo) (u : Str),
      r.button = some b → extractUuidPrimary b r.rowAttrs = some u →
      validUuid u = false →
      page.tables.flatten = rows1 ++ r :: rows2 →
      page'.tables.flatten = rows1 ++ rows2 →
      page.buttons = page'.buttons →
      get_active_calls page processed = get_active_calls page' processed) ∧
    (∀ (s : MonState) (io : Bool) (il rl : Nat → AttemptOutcome) (f : FetchOutcome)
      (page page' : Page) (rows1 rows2 : List PageRow) (r : PageRow) (b : BtnInfo) (u : Str),
      r.button = some b → extractUuidPrimary b r.rowAttrs = some u →
      validUuid u = false →
      page.tables.flatten = rows1 ++ r :: rows2 →
      page'.tables.flatten = rows1 ++ rows2 →
      page.buttons = page'.buttons →
      monitorCycle s ⟨io, il, f, rl, page⟩ = monitorCycle s ⟨io, il, f, rl, page'⟩) := by
  refine ⟨rowToCall_invalid_none, fallbackToCall_invalid_none, ?_, ?_⟩
  · intro page page' processed rows1 rows2 r b u hb hext hval htab htab' hbtn
    exact get_active_calls_drop_none page page' processed rows1 rows2 r
      (fun p => rowToCall_invalid_none p r b u hb hext hval) htab htab' hbtn
  · intro s io il rl f page page' rows1 rows2 r b u hb hext hval htab htab' hbtn
    exact monitorCycle_page_congr s io il rl f page page'
      (fun p => get_active_calls_drop_none page page' p rows1 rows2 r
        (fun p' => rowToCall_invalid_none p' r b u hb hext hval) htab htab' hbtn)

/-- Witness for `token_validation_drops_row`: a row whose `onclick` is
`playCall("123.4")` (an extracted but invalid token) yields no record, and a
page containing it yields the same call list as the page without it. -/
theorem token_validation_drops_row_witness :
    rowToCall [] badRow = none ∧
    get_active_calls ⟨[[sampleRow, badRow]], []⟩ [] = get_active_calls onePage [] :=
  ⟨token_validation_drops_row.1 [] badRow badBtn (str "123.4") rfl (by decide) (by decide),
   token_validation_drops_row.2.2.1 ⟨[[sampleRow, badRow]], []⟩ onePage []
     [sampleRow] [] badRow badBtn (str "123.4") rfl (by decide) (by decide)
     rfl rfl rfl⟩

/-! ## Ledger filtering lemmas for the extractor -/

lemma rowToCall_char (processed : List Str) (r : PageRow) :
    rowToCall processed r =
      (rowToCall [] r).bind (fun c => if c.id ∈ processed then none else some c) := by
  by_cases hlen : r.cells.length < 5
  · simp [rowToCall, hlen]
  cases hb : r.button with
  | none => simp [rowToCall, hlen, hb]
  | some b =>
    cases hext : extractUuidPrimary b r.rowAttrs with
    | none => simp [rowToCall, hlen, hb, hext]
    | some u =>
      by_cases hval : validUuid u
      · simp only [rowToCall, hlen, if_false, hb, hext, hval, if_true]
        by_cases hdid : strip (r.cells[1]?.getD []) = []
        · simp [hdid]
        by_cases hcli : strip (r.cells[2]?.getD []) = []
        · simp [hdid, hcli]
        by_cases hmem :
            mkCallId (strip (r.cells[0]?.getD [])) (strip (r.cells[1]?.getD []))
              (strip (r.cells[2]?.getD [])) ∈ processed
        · simp [hdid, hcli, hmem]
        · simp [hdid, hcli, hmem]
      · simp [rowToCall, hlen, hb, hext, hval]

lemma fallbackToCall_char (processed : List Str) (fb : FallbackBtn) :
    fallbackToCall processed fb =
      (fallbackToCall [] fb).bind (fun c => if c.id ∈ processed then none else some c) := by
  by_cases hlen : fb.rowCells.length < 5
  · simp [fallbackToCall, hlen]
  cases hext : extractUuidFallback fb.btn with
  | none => simp [fallbackToCall, hlen, hext]
  | some u =>
    by_cases hval : validUuid u
    · simp only [fallbackToCall, hlen, if_false, hext, hval, if_true]
      by_cases hdid : strip (fb.rowCells[1]?.getD []) = []
      · simp [hdid]
      by_cases hcli : strip (fb.rowCells[2]?.getD []) = []
      · simp [hdid, hcli]
      by_cases hmem :
          mkCallId (strip (fb.rowCells[0]?.getD [])) (strip (fb.rowCells[1]?.getD []))
            (strip (fb.rowCells[2]?.getD [])) ∈ processed
      · simp [hdid, hcli, hmem]
      · simp [hdid, hcli, hmem]
    · simp [fallbackToCall, hlen, hext, hval]

lemma rowToCall_nil_of {processed : List Str} {r : PageRow} {c : CallRecord}
    (h : rowToCall processed r = some c) : rowToCall [] r = some c := by
  rw [rowToCall_char] at h
  cases h0 : rowToCall [] r with
  | none => rw [h0] at h; exact Option.noConfusion h
  | some c' =>
    by_cases hm : c'.id ∈ processed
    · rw [h0] at h
      simp [hm] at h
    · rw [h0] at h
      simp [hm] at h
      rw [h]

lemma rowToCall_of_nil {processed : List Str} {r : PageRow} {c : CallRecord}
    (h : rowToCall [] r = some c) (hmem : c.id ∉ processed) :
    rowToCall processed r = some c := by
  rw [rowToCall_char, h]
  simp [hmem]

lemma fallbackToCall_nil_of {processed : List Str} {fb : FallbackBtn} {c : CallRecord}
    (h : fallbackToCall processed fb = some c) : fallbackToCall [] fb = some c := by
  rw [fallbackToCall_char] at h
  cases h0 : fallbackToCall [] fb with
  | none => rw [h0] at h; exact Option.noConfusion h
  | some c' =>
    by_cases hm : c'.id ∈ processed
    · rw [h0] at h
      simp [hm] at h
    · rw [h0] at h
      simp [hm] at h
      rw [h]

lemma fallbackToCall_of_nil {processed : List Str} {fb : FallbackBtn} {c : CallRecord}
    (h : fallbackToCall [] fb = some c) (hmem : c.id ∉ processed) :
    fallbackToCall processed fb = some c := by
  rw [fallbackToCall_char, h]
  simp [hmem]

lemma filterMap_sublist_of_imp {α β : Type} (f g : α → Option β)
    (h : ∀ x b, g x = some b → f x = some b) :
    ∀ l : List α, (l.filterMap g).Sublist (l.filterMap f) := by
  intro l
  induction l with
  | nil => simp
  | cons a l ih =>
    cases hg : g a with
    | none =>
      rw [List.filterMap_cons_none hg]
      cases hf : f a with
      | none => rw [List.filterMap_cons_none hf]; exact ih
      | some b => rw [List.filterMap_cons_some hf]; exact ih.cons b
    | some b =>
      rw [List.filterMap_cons_some hg, List.filterMap_cons_some (h a b hg)]
      exact ih.cons₂ b

lemma gac_ids_sublist_pageIds (page : Page) (p : List Str) :
    ((get_active_calls page p).map (·.id)).Sublist (pageIds page) := by
  unfold get_active_calls pageIds
  split
  · refine List.Sublist.trans ?_ (List.sublist_append_right _ _)
    rw [List.map_filterMap]
    refine filterMap_sublist_of_imp _ _ (fun fb v h => ?_) _
    cases h1 : fallbackToCall p fb with
    | none => rw [h1] at h; simp at h
    | some c' =>
      rw [h1] at h
      rw [fallbackToCall_nil_of h1]
      exact h
  · refine List.Sublist.trans ?_ (List.sublist_append_left _ _)
    rw [List.map_filterMap]
    refine filterMap_sublist_of_imp _ _ (fun r v h => ?_) _
    cases h1 : rowToCall p r with
    | none => rw [h1] at h; simp at h
    | some c' =>
      rw [h1] at h
      rw [rowToCall_nil_of h1]
      exact h

lemma gac_mem_of_recordIds (page : Page) (p : List Str) (id : Str)
    (hid : id ∈ recordIds page) (hnm : id ∉ p) :
    ∃ c, c ∈ get_active_calls page p ∧ c.id = id := by
  unfold recordIds get_active_calls at hid
  unfold get_active_calls
  by_cases h0 : (page.tables.flatten.filterMap (rowToCall ([] : List Str))).isEmpty
  · have h0p : (page.tables.flatten.filterMap (rowToCall p)).isEmpty := by
      rw [List.isEmpty_iff] at h0 ⊢
      have hs := filterMap_sublist_of_imp (rowToCall []) (rowToCall p)
        (fun r c h => rowToCall_nil_of h) page.tables.flatten
      rw [h0] at hs
      exact List.sublist_nil.mp hs
    rw [if_pos h0] at hid
    rw [if_pos h0p]
    obtain ⟨c, hc, hcid⟩ := List.mem_map.mp hid
    obtain ⟨fb, hfb, hfbc⟩ := List.mem_filterMap.mp hc
    refine ⟨c, List.mem_filterMap.mpr ⟨fb, hfb, ?_⟩, hcid⟩
    exact fallbackToCall_of_nil hfbc (hcid ▸ hnm)
  · rw [if_neg h0] at hid
    obtain ⟨c, hc, hcid⟩ := List.mem_map.mp hid
    obtain ⟨r, hr, hrc⟩ := List.mem_filterMap.mp hc
    have hrp : rowToCall p r = some c := rowToCall_of_nil hrc (hcid ▸ hnm)
    have hmem : c ∈ page.tables.flatten.filterMap (rowToCall p) :=
      List.mem_filterMap.mpr ⟨r, hr, hrp⟩
    have hne : ¬ (page.tables.flatten.filterMap (rowToCall p)).isEmpty := by
      rw [List.isEmpty_iff]
      intro hnil
      rw [hnil] at hmem
      exact absurd hmem (List.not_mem_nil c)
    rw [if_neg hne]
    exact ⟨c, hmem, hcid⟩

/-! ## Event counting and dispatch lemmas -/

lemma countDispatch_nil (id : Str) : countDispatch id [] = 0 := rfl

lemma countDispatch_append (id : Str) (l1 l2 : List Event) :
    countDispatch id (l1 ++ l2) = countDispatch id l1 + countDispatch id l2 := by
  simp [countDispatch, List.countP_append]

lemma countDispatch_cons (id : Str) (ev : Event) (l : List Event) :
    countDispatch id (ev :: l) =
      countDispatch id l + (if ev = Event.dispatch id then 1 else 0) := by
  simp [countDispatch, List.countP_cons]

lemma countRestored_nil : countRestored [] = 0 := rfl

lemma countRestored_append (l1 l2 : List Event) :
    countRestored (l1 ++ l2) = countRestored l1 + countRestored l2 := by
  simp [countRestored, List.countP_append]

lemma countRestored_cons (ev : Event) (l : List Event) :
    countRestored (ev :: l) = countRestored l + (if ev = Event.restored then 1 else 0) := by
  simp [countRestored, List.countP_cons]

lemma countP_le_one_of_nodup {α : Type} [DecidableEq α] (b : α) :
    ∀ l : List α, l.Nodup → l.countP (fun a => decide (a = b)) ≤ 1 := by
  intro l
  induction l with
  | nil => intro _; simp
  | cons a l ih =>
    intro hnd
    rw [List.countP_cons]
    by_cases hab : a = b
    · subst hab
      have hz : l.countP (fun x => decide (x = a)) = 0 := by
        rw [List.countP_eq_zero]
        intro x hx
        simp only [decide_eq_true_eq]
        intro hxa
        subst hxa
        exact (List.nodup_cons.mp hnd).1 hx
      simp [hz]
    · have h := ih (List.nodup_cons.mp hnd).2
      simpa [hab] using h

lemma dispatchAll_fst (p : List Str) (c : CallRecord) (l : List CallRecord) :
    (dispatchAll p (c :: l)).1 = (dispatchAll (p.insert c.id) l).1 := rfl

lemma dispatchAll_snd (p : List Str) (c : CallRecord) (l : List CallRecord) :
    (dispatchAll p (c :: l)).2 =
      .notifyNew c.id :: .dispatch c.id :: (dispatchAll (p.insert c.id) l).2 := rfl

lemma dispatchAll_count (id : Str) :
    ∀ (l : List CallRecord) (p : List Str),
      countDispatch id (dispatchAll p l).2 = l.countP (fun c => decide (c.id = id)) := by
  intro l
  induction l with
  | nil => intro p; rfl
  | cons c l ih =>
    intro p
    rw [dispatchAll_snd, countDispatch_cons, countDispatch_cons, ih (p.insert c.id),
      List.countP_cons]
    by_cases hc : c.id = id
    · simp [hc]
    · simp [hc]

lemma dispatchAll_no_restored :
    ∀ (l : List CallRecord) (p : List Str), countRestored (dispatchAll p l).2 = 0 := by
  intro l
  induction l with
  | nil => intro p; rfl
  | cons c l ih =>
    intro p
    rw [dispatchAll_snd, countRestored_cons, countRestored_cons, ih (p.insert c.id)]
    simp

lemma dispatchAll_mem (id : Str) :
    ∀ (l : List CallRecord) (p : List Str),
      id ∈ (dispatchAll p l).1 ↔ id ∈ p ∨ ∃ c ∈ l, c.id = id := by
  intro l
  induction l with
  | nil => intro p; simp [dispatchAll]
  | cons c l ih =>
    intro p
    rw [dispatchAll_fst]
    constructor
    · intro h
      rcases (ih _).mp h with hp | hex
      · rcases List.mem_insert_iff.mp hp with h1 | h2
        · exact Or.inr ⟨c, List.mem_cons_self c l, h1.symm⟩
        · exact Or.inl h2
      · obtain ⟨c', hc', hid⟩ := hex
        exact Or.inr ⟨c', List.mem_cons_of_mem c hc', hid⟩
    · rintro (hp | ⟨c', hc', hid⟩)
      · exact (ih _).mpr (Or.inl (List.mem_insert_iff.mpr (Or.inr hp)))
      · rcases List.mem_cons.mp hc' with rfl | hmem
        · exact (ih _).mpr (Or.inl (List.mem_insert_iff.mpr (Or.inl hid.symm)))
        · exact (ih _).mpr (Or.inr ⟨c', hmem, hid⟩)

/-! ## Steady-phase lemmas -/

lemma steadyPhase_def (s : MonState) (page : Page) :
    steadyPhase s page =
      (⟨s.hasDriver, false, 0,
        (dispatchAll s.processed ((get_active_calls page s.processed).filter
          (fun c => decide (c.id ∉ s.processed)))).1⟩,
       (if s.cir then [Event.restored] else []) ++
        (dispatchAll s.processed ((get_active_calls page s.processed).filter
          (fun c => decide (c.id ∉ s.processed)))).2) := rfl

lemma countDispatch_evsR (id : Str) (b : Bool) :
    countDispatch id (if b then [Event.restored] else []) = 0 := by
  cases b <;> simp [countDispatch]

lemma steadyPhase_count (s : MonState) (page : Page) (id : Str) :
    countDispatch id (steadyPhase s page).2 =
      ((get_active_calls page s.processed).filter
        (fun c => decide (c.id ∉ s.processed))).countP (fun c => decide (c.id = id)) := by
  rw [steadyPhase_def]
  simp only []
  rw [countDispatch_append, countDispatch_evsR, dispatchAll_count]
  omega

lemma steadyPhase_count_zero (s : MonState) (page : Page) (id : Str)
    (h : id ∈ s.processed) : countDispatch id (steadyPhase s page).2 = 0 := by
  rw [steadyPhase_count, List.countP_eq_zero]
  intro c hc
  simp only [decide_eq_true_eq]
  intro hcid
  have := (List.mem_filter.mp hc).2
  simp only [decide_eq_true_eq] at this
  exact this (hcid ▸ h)

lemma steadyPhase_count_le_one (s : MonState) (page : Page) (id : Str)
    (hnd : (pageIds page).Nodup) : countDispatch id (steadyPhase s page).2 ≤ 1 := by
  rw [steadyPhase_count]
  have h1 : ((get_active_calls page s.processed).filter
      (fun c => decide (c.id ∉ s.processed))).countP (fun c => decide (c.id = id)) ≤
      (get_active_calls page s.processed).countP (fun c => decide (c.id = id)) :=
    List.Sublist.countP_le (fun c : CallRecord => decide (c.id = id)) (List.filter_sublist _)
  have h2 : (get_active_calls page s.processed).countP (fun c => decide (c.id = id)) =
      ((get_active_calls page s.processed).map (·.id)).countP (fun a => decide (a = id)) := by
    rw [List.countP_map]
    rfl
  have h3 := countP_le_one_of_nodup id ((get_active_calls page s.processed).map (·.id))
    ((gac_ids_sublist_pageIds page s.processed).nodup hnd)
  omega

lemma steadyPhase_count_one (s : MonState) (page : Page) (id : Str)
    (hnd : (pageIds page).Nodup) (hid : id ∈ recordIds page) (hnm : id ∉ s.processed) :
    countDispatch id (steadyPhase s page).2 = 1 := by
  obtain ⟨c, hc, hcid⟩ := gac_mem_of_recordIds page s.processed id hid hnm
  have hmem : c ∈ (get_active_calls page s.processed).filter
      (fun c => decide (c.id ∉ s.processed)) := by
    rw [List.mem_filter]
    exact ⟨hc, by simp [hcid, hnm]⟩
  have hpos : 0 < ((get_active_calls page s.processed).filter
      (fun c => decide (c.id ∉ s.processed))).countP (fun c => decide (c.id = id)) := by
    rw [List.countP_pos_iff]
    exact ⟨c, hmem, by simp [hcid]⟩
  have hle := steadyPhase_count_le_one s page id hnd
  rw [steadyPhase_count] at hle ⊢
  omega

lemma steadyPhase_mem_mono (s : MonState) (page : Page) (id : Str)
    (h : id ∈ s.processed) : id ∈ (steadyPhase s page).1.processed := by
  rw [steadyPhase_def]
  exact (dispatchAll_mem id _ _).mpr (Or.inl h)

lemma steadyPhase_mem_of_count (s : MonState) (page : Page) (id : Str)
    (h : 1 ≤ countDispatch id (steadyPhase s page).2) :
    id ∈ (steadyPhase s page).1.processed := by
  rw [steadyPhase_count] at h
  have hpos : 0 < ((get_active_calls page s.processed).filter
      (fun c => decide (c.id ∉ s.processed))).countP (fun c => decide (c.id = id)) := h
  rw [List.countP_pos_iff] at hpos
  obtain ⟨c, hc, hcid⟩ := hpos
  simp only [decide_eq_true_eq] at hcid
  rw [steadyPhase_def]
  exact (dispatchAll_mem id _ _).mpr (Or.inr ⟨c, hc, hcid⟩)

lemma steadyPhase_no_restored (s : MonState) (page : Page) (h : s.cir = false) :
    countRestored (steadyPhase s page).2 = 0 := by
  rw [steadyPhase_def, h]
  simp only [Bool.false_eq_true, if_false, List.nil_append]
  exact dispatchAll_no_restored _ _

/-! ## Login and cycle lemmas -/

lemma countDispatch_lost1 (id : Str) (b : Bool) :
    countDispatch id (if b then [] else [Event.lost]) = 0 := by
  cases b <;> simp [countDispatch]

lemma countDispatch_lost (id : Str) : countDispatch id [Event.lost] = 0 := by
  simp [countDispatch]

lemma loginGo_no_dispatch (id : Str) (f : Nat → AttemptOutcome) :
    ∀ (r : Nat) (cir : Bool) (i : Nat), countDispatch id (loginGo f cir i r).2.2 = 0 := by
  intro r
  induction r with
  | zero => intro cir i; rfl
  | succ r ih =>
    intro cir i
    simp only [loginGo]
    cases f i with
    | ok => simp [countDispatch]
    | stay => exact ih cir (i + 1)
    | exn =>
      by_cases hr : r = 0
      · simp [hr, countDispatch]
      · simp only [hr, if_false]
        exact ih cir (i + 1)

lemma loginGo_restored_of_success (f : Nat → AttemptOutcome) :
    ∀ (r : Nat) (cir : Bool) (i : Nat), (loginGo f cir i r).1 = true →
      countRestored (loginGo f cir i r).2.2 = 1 := by
  intro r
  induction r with
  | zero => intro cir i h; exact absurd h (by simp [loginGo])
  | succ r ih =>
    intro cir i h
    simp only [loginGo] at h ⊢
    cases hf : f i with
    | ok => simp only [hf]; simp [countRestored]
    | stay =>
      simp only [hf] at h ⊢
      exact ih cir (i + 1) h
    | exn =>
      simp only [hf] at h ⊢
      by_cases hr : r = 0
      · rw [hr] at h; simp at h
      · simp only [hr, if_false] at h ⊢
        exact ih cir (i + 1) h

lemma fetchPhase_ok {s : MonState} {e : CycleEnv} (h : e.fetch = .ok) :
    fetchPhase s e = steadyPhase s e.page := by
  unfold fetchPhase
  rw [h]

lemma fetchPhase_expired_success {s : MonState} {e : CycleEnv} (h : e.fetch = .expired)
    (hl : (login_to_orangecarrier e.relogin true).1 = true) :
    fetchPhase s e = ((steadyPhase ⟨s.hasDriver, false, 0, s.processed⟩ e.page).1,
      (if s.cir then [] else [Event.lost]) ++ (login_to_orangecarrier e.relogin true).2.2 ++
        (steadyPhase ⟨s.hasDriver, false, 0, s.processed⟩ e.page).2) := by
  unfold fetchPhase
  rw [h]
  simp [hl]

lemma fetchPhase_expired_fail_low {s : MonState} {e : CycleEnv} (h : e.fetch = .expired)
    (hl : (login_to_orangecarrier e.relogin true).1 = false) (he : ¬ s.errors + 1 ≥ 5) :
    fetchPhase s e =
      (⟨s.hasDriver, (login_to_orangecarrier e.relogin true).2.1, s.errors + 1, s.processed⟩,
       (if s.cir then [] else [Event.lost]) ++ (login_to_orangecarrier e.relogin true).2.2) := by
  unfold fetchPhase
  rw [h]
  simp [hl, he]

lemma fetchPhase_expired_fail_high {s : MonState} {e : CycleEnv} (h : e.fetch = .expired)
    (hl : (login_to_orangecarrier e.relogin true).1 = false) (he : s.errors + 1 ≥ 5) :
    fetchPhase s e = (⟨false, true, s.errors + 1, s.processed⟩,
      (if s.cir then [] else [Event.lost]) ++ (login_to_orangecarrier e.relogin true).2.2 ++
        [Event.lost]) := by
  unfold fetchPhase
  rw [h]
  simp [hl, he]

lemma fetchPhase_err_low {s : MonState} {e : CycleEnv} (h : e.fetch = .err)
    (he : ¬ s.errors + 1 ≥ 5) :
    fetchPhase s e = (⟨s.hasDriver, true, s.errors + 1, s.processed⟩,
      if s.cir then [] else [Event.lost]) := by
  unfold fetchPhase
  rw [h]
  simp [he]

lemma fetchPhase_err_high {s : MonState} {e : CycleEnv} (h : e.fetch = .err)
    (he : s.errors + 1 ≥ 5) :
    fetchPhase s e = (⟨false, true, s.errors + 1, s.processed⟩,
      (if s.cir then [] else [Event.lost]) ++ [Event.lost]) := by
  unfold fetchPhase
  rw [h]
  simp [he]

lemma fetchPhase_mem_mono (s : MonState) (e : CycleEnv) (id : Str)
    (h : id ∈ s.processed) : id ∈ (fetchPhase s e).1.processed := by
  cases hf : e.fetch with
  | ok =>
    rw [fetchPhase_ok hf]
    exact steadyPhase_mem_mono _ _ _ h
  | expired =>
    by_cases hl : (login_to_orangecarrier e.relogin true).1 = true
    · rw [fetchPhase_expired_success hf hl]
      exact steadyPhase_mem_mono ⟨s.hasDriver, false, 0, s.processed⟩ _ _ h
    · have hl' : (login_to_orangecarrier e.relogin true).1 = false := by
        simpa using hl
      by_cases he : s.errors + 1 ≥ 5
      · rw [fetchPhase_expired_fail_high hf hl' he]; exact h
      · rw [fetchPhase_expired_fail_low hf hl' he]; exact h
  | err =>
    by_cases he : s.errors + 1 ≥ 5
    · rw [fetchPhase_err_high hf he]; exact h
    · rw [fetchPhase_err_low hf he]; exact h

lemma login_no_dispatch (id : Str) (f : Nat → AttemptOutcome) (cir : Bool) :
    countDispatch id (login_to_orangecarrier f cir).2.2 = 0 :=
  loginGo_no_dispatch id f 3 cir 0

lemma fetchPhase_count_eq_steady (s : MonState) (e : CycleEnv) (id : Str) :
    countDispatch id (fetchPhase s e).2 =
      (if e.fetch = .ok then countDispatch id (steadyPhase s e.page).2
       else if e.fetch = .expired ∧ (login_to_orangecarrier e.relogin true).1 = true then
         countDispatch id (steadyPhase ⟨s.hasDriver, false, 0, s.processed⟩ e.page).2
       else 0) := by
  cases hf : e.fetch with
  | ok => simp [fetchPhase_ok hf]
  | expired =>
    by_cases hl : (login_to_orangecarrier e.relogin true).1 = true
    · rw [fetchPhase_expired_success hf hl]
      simp only [hf, hl]
      simp [countDispatch_append, countDispatch_lost1, login_no_dispatch]
    · have hl' : (login_to_orangecarrier e.relogin true).1 = false := by
        simpa using hl
      by_cases he : s.errors + 1 ≥ 5
      · rw [fetchPhase_expired_fail_high hf hl' he]
        simp only [hf, hl']
        simp [countDispatch_append, countDispatch_lost1, login_no_dispatch,
          countDispatch_lost]
      · rw [fetchPhase_expired_fail_low hf hl' he]
        simp only [hf, hl']
        simp [countDispatch_append, countDispatch_lost1, login_no_dispatch]
  | err =>
    by_cases he : s.errors + 1 ≥ 5
    · rw [fetchPhase_err_high hf he]
      simp [hf, countDispatch_append, countDispatch_lost1, countDispatch_lost]
    · rw [fetchPhase_err_low hf he]
      simp [hf, countDispatch_lost1]

lemma fetchPhase_count_zero (s : MonState) (e : CycleEnv) (id : Str)
    (h : id ∈ s.processed) : countDispatch id (fetchPhase s e).2 = 0 := by
  rw [fetchPhase_count_eq_steady]
  split
  · exact steadyPhase_count_zero s e.page id h
  · split
    · exact steadyPhase_count_zero ⟨s.hasDriver, false, 0, s.processed⟩ e.page id h
    · rfl

lemma fetchPhase_count_le_one (s : MonState) (e : CycleEnv) (id : Str)
    (hnd : (pageIds e.page).Nodup) : countDispatch id (fetchPhase s e).2 ≤ 1 := by
  rw [fetchPhase_count_eq_steady]
  split
  · exact steadyPhase_count_le_one s e.page id hnd
  · split
    · exact steadyPhase_count_le_one ⟨s.hasDriver, false, 0, s.processed⟩ e.page id hnd
    · omega

lemma fetchPhase_mem_of_count (s : MonState) (e : CycleEnv) (id : Str)
    (h : 1 ≤ countDispatch id (fetchPhase s e).2) : id ∈ (fetchPhase s e).1.processed := by
  rw [fetchPhase_count_eq_steady] at h
  cases hf : e.fetch with
  | ok =>
    rw [fetchPhase_ok hf]
    rw [hf] at h
    simp only [if_true] at h
    exact steadyPhase_mem_of_count s e.page id (by simpa using h)
  | expired =>
    rw [hf] at h
    by_cases hl : (login_to_orangecarrier e.relogin true).1 = true
    · rw [fetchPhase_expired_success hf hl]
      simp only [hl] at h
      have h' : 1 ≤ countDispatch id
          (steadyPhase ⟨s.hasDriver, false, 0, s.processed⟩ e.page).2 := by
        simpa using h
      exact steadyPhase_mem_of_count _ _ _ h'
    · simp [hl] at h
  | err =>
    rw [hf] at h
    simp at h

lemma initPhase_setup_fail {s : MonState} {e : CycleEnv} (h : e.initSetupOk = false) :
    initPhase s e = (⟨false, true, s.errors + 1, s.processed⟩, [Event.lost]) := by
  unfold initPhase
  simp [h]

lemma initPhase_login_fail {s : MonState} {e : CycleEnv} (h : e.initSetupOk = true)
    (hl : (login_to_orangecarrier e.initLogin s.cir).1 = false) :
    initPhase s e = (⟨false, true, s.errors + 1, s.processed⟩,
      (login_to_orangecarrier e.initLogin s.cir).2.2 ++ [Event.lost]) := by
  unfold initPhase
  simp [h, hl]

lemma initPhase_login_success {s : MonState} {e : CycleEnv} (h : e.initSetupOk = true)
    (hl : (login_to_orangecarrier e.initLogin s.cir).1 = true) :
    initPhase s e = ((fetchPhase ⟨true, false, 0, s.processed⟩ e).1,
      (login_to_orangecarrier e.initLogin s.cir).2.2 ++
        (if s.cir then [Event.restored] else []) ++
        (fetchPhase ⟨true, false, 0, s.processed⟩ e).2) := by
  unfold initPhase
  simp [h, hl]

lemma countDispatch_evsRestored (id : Str) (b : Bool) :
    countDispatch id (if b then [Event.restored] else []) = 0 := by
  cases b <;> simp [countDispatch]

lemma initPhase_mem_mono (s : MonState) (e : CycleEnv) (id : Str)
    (h : id ∈ s.processed) : id ∈ (initPhase s e).1.processed := by
  by_cases hio : e.initSetupOk = true
  · by_cases hl : (login_to_orangecarrier e.initLogin s.cir).1 = true
    · rw [initPhase_login_success hio hl]
      exact fetchPhase_mem_mono ⟨true, false, 0, s.processed⟩ e id h
    · rw [initPhase_login_fail hio (by simpa using hl)]
      exact h
  · rw [initPhase_setup_fail (by simpa using hio)]
    exact h

lemma initPhase_count_eq_fetch (s : MonState) (e : CycleEnv) (id : Str) :
    countDispatch id (initPhase s e).2 =
      (if e.initSetupOk = true ∧ (login_to_orangecarrier e.initLogin s.cir).1 = true then
        countDispatch id (fetchPhase ⟨true, false, 0, s.processed⟩ e).2
       else 0) := by
  by_cases hio : e.initSetupOk = true
  · by_cases hl : (login_to_orangecarrier e.initLogin s.cir).1 = true
    · rw [initPhase_login_success hio hl]
      simp only [hio, hl, and_self, if_true]
      simp [countDispatch_append, countDispatch_evsRestored, login_no_dispatch]
    · rw [initPhase_login_fail hio (by simpa using hl)]
      simp only [hio, hl]
      simp [countDispatch_append, countDispatch_lost, login_no_dispatch]
  · rw [initPhase_setup_fail (by simpa using hio)]
    simp [hio, countDispatch_lost]

lemma cycle_mem_mono (s : MonState) (e : CycleEnv) (id : Str)
    (h : id ∈ s.processed) : id ∈ (monitorCycle s e).1.processed := by
  unfold monitorCycle
  by_cases hd : s.hasDriver = true
  · simp only [hd, if_true]
    exact fetchPhase_mem_mono s e id h
  · simp only [hd]
    simp only [Bool.not_eq_true] at hd
    simp only [hd, Bool.false_eq_true, if_false]
    exact initPhase_mem_mono s e id h

lemma cycle_count_zero (s : MonState) (e : CycleEnv) (id : Str)
    (h : id ∈ s.processed) : countDispatch id (monitorCycle s e).2 = 0 := by
  unfold monitorCycle
  by_cases hd : s.hasDriver = true
  · simp only [hd, if_true]
    exact fetchPhase_count_zero s e id h
  · simp only [Bool.not_eq_true] at hd
    simp only [hd, Bool.false_eq_true, if_false]
    rw [initPhase_count_eq_fetch]
    split
    · exact fetchPhase_count_zero ⟨true, false, 0, s.processed⟩ e id h
    · rfl

lemma cycle_count_le_one (s : MonState) (e : CycleEnv) (id : Str)
    (hnd : (pageIds e.page).Nodup) : countDispatch id (monitorCycle s e).2 ≤ 1 := by
  unfold monitorCycle
  by_cases hd : s.hasDriver = true
  · simp only [hd, if_true]
    exact fetchPhase_count_le_one s e id hnd
  · simp only [Bool.not_eq_true] at hd
    simp only [hd, Bool.false_eq_true, if_false]
    rw [initPhase_count_eq_fetch]
    split
    · exact fetchPhase_count_le_one ⟨true, false, 0, s.processed⟩ e id hnd
    · omega

lemma cycle_mem_of_count (s : MonState) (e : CycleEnv) (id : Str)
    (h : 1 ≤ countDispatch id (monitorCycle s e).2) :
    id ∈ (monitorCycle s e).1.processed := by
  unfold monitorCycle at h ⊢
  by_cases hd : s.hasDriver = true
  · simp only [hd, if_true] at h ⊢
    exact fetchPhase_mem_of_count s e id h
  · simp only [Bool.not_eq_true] at hd
    simp only [hd, Bool.false_eq_true, if_false] at h ⊢
    rw [initPhase_count_eq_fetch] at h
    by_cases hc : e.initSetupOk = true ∧ (login_to_orangecarrier e.initLogin s.cir).1 = true
    · rw [if_pos hc] at h
      rw [initPhase_login_success hc.1 hc.2]
      exact fetchPhase_mem_of_count ⟨true, false, 0, s.processed⟩ e id h
    · rw [if_neg hc] at h
      omega

lemma run_snd (s : MonState) (e : CycleEnv) (es : List CycleEnv) :
    (monitor_calls_with_recovery s (e :: es)).2 =
      (monitorCycle s e).2 ++ (monitor_calls_with_recovery (monitorCycle s e).1 es).2 := rfl

lemma run_count_zero (id : Str) :
    ∀ (envs : List CycleEnv) (s : MonState), id ∈ s.processed →
      countDispatch id (monitor_calls_with_recovery s envs).2 = 0 := by
  intro envs
  induction envs with
  | nil => intro s _; rfl
  | cons e es ih =>
    intro s h
    rw [run_snd, countDispatch_append, cycle_count_zero s e id h,
      ih (monitorCycle s e).1 (cycle_mem_mono s e id h)]

lemma run_count_le_one (id : Str) :
    ∀ (envs : List CycleEnv) (s : MonState),
      (∀ e ∈ envs, (pageIds e.page).Nodup) →
      countDispatch id (monitor_calls_with_recovery s envs).2 ≤ 1 := by
  intro envs
  induction envs with
  | nil => intro s _; simp [monitor_calls_with_recovery, countDispatch]
  | cons e es ih =>
    intro s hnd
    rw [run_snd, countDispatch_append]
    have h1 : countDispatch id (monitorCycle s e).2 ≤ 1 :=
      cycle_count_le_one s e id (hnd e (List.mem_cons_self e es))
    by_cases hz : countDispatch id (monitorCycle s e).2 = 0
    · have h2 := ih (monitorCycle s e).1 (fun e' he' => hnd e' (List.mem_cons_of_mem e he'))
      omega
    · have hmem : id ∈ (monitorCycle s e).1.processed :=
        cycle_mem_of_count s e id (by omega)
      have h2 := run_count_zero id es (monitorCycle s e).1 hmem
      omega

/-! ## Connection-restored events: C5 -/

/-- C5 (counterexample): starting disconnected with no prior connection issue
(`connection_issue_reported = False`), a cycle whose login succeeds emits a
"connection restored" notification (from inside `login_to_orangecarrier`),
although no degradation or disconnection alert ever preceded it. -/
theorem connection_restored_unprompted_counterexample :
    countRestored (monitorCycle ⟨false, false, 0, []⟩ (okEnv ⟨[], []⟩)).2 ≠ 0 := by
  decide

/-- C5 (amended): `login_to_orangecarrier` emits exactly one "connection
restored" event on every successful login, whether or not a degraded or
disconnected state preceded it; and when the monitoring loop re-initialises
the driver while a connection issue is pending, the event is emitted twice in
that cycle (once by the login routine and once by the loop) — not exactly
once. -/
theorem connection_restored_on_every_login :
    (∀ (f : Nat → AttemptOutcome) (cir : Bool),
      (login_to_orangecarrier f cir).1 = true →
      countRestored (login_to_orangecarrier f cir).2.2 = 1) ∧
    (∀ (s : MonState) (e : CycleEnv), s.hasDriver = false → s.cir = true →
      e.initSetupOk = true → (login_to_orangecarrier e.initLogin s.cir).1 = true →
      e.fetch = .ok → countRestored (monitorCycle s e).2 = 2) := by
  constructor
  · intro f cir h
    exact loginGo_restored_of_success f 3 cir 0 h
  · intro s e hd hc hio hl hf
    have hcy : monitorCycle s e = initPhase s e := by
      unfold monitorCycle
      simp [hd]
    rw [hcy, initPhase_login_success hio hl, countRestored_append, countRestored_append]
    have hlr : countRestored (login_to_orangecarrier e.initLogin s.cir).2.2 = 1 :=
      loginGo_restored_of_success e.initLogin 3 s.cir 0 hl
    rw [hlr, hc, fetchPhase_ok hf, steadyPhase_no_restored _ _ rfl]
    simp [countRestored]

/-- Witness for `connection_restored_on_every_login`. -/
theorem connection_restored_on_every_login_witness :
    countRestored (login_to_orangecarrier (fun _ => .ok) false).2.2 = 1 ∧
    countRestored (monitorCycle ⟨false, true, 0, []⟩ (okEnv ⟨[], []⟩)).2 = 2 :=
  ⟨connection_restored_on_every_login.1 (fun _ => .ok) false (by decide),
   connection_restored_on_every_login.2 ⟨false, true, 0, []⟩ (okEnv ⟨[], []⟩) rfl rfl rfl
     (by decide) rfl⟩

/-! ## At-most-once dispatch: C1 -/

/-- C1 (counterexample): when one snapshot shows two rows with the same
derived id (here `A_1_2`) and the id also appears in the next snapshot, the
dispatch loop hands that id to `process_single_call` twice, not exactly once:
`new_calls` is filtered against the ledger before the loop, so duplicates
inside a single snapshot are each dispatched. -/
theorem dispatch_duplicate_rows_counterexample :
    countDispatch (str "A_1_2")
      (monitor_calls_with_recovery ⟨true, false, 0, []⟩
        [okEnv dupPage, okEnv onePage]).2 ≠ 1 := by
  decide

/-- C1 (amended): provided every snapshot yields pairwise-distinct record ids,
each id is dispatched to at most one `process_single_call` invocation over any
run; and an id that appears in two consecutive snapshots (and was not already
in the ledger) is dispatched exactly once.  The ledger is updated before each
submission, so consecutive-snapshot duplicates are never re-dispatched; only
duplicate ids inside one snapshot violate the original claim. -/
theorem dispatch_at_most_once :
    (∀ (s : MonState) (envs : List CycleEnv) (id : Str),
      (∀ e ∈ envs, (pageIds e.page).Nodup) →
      countDispatch id (monitor_calls_with_recovery s envs).2 ≤ 1) ∧
    (∀ (s : MonState) (e1 e2 : CycleEnv) (id : Str),
      s.hasDriver = true → e1.fetch = .ok → e2.fetch = .ok →
      (pageIds e1.page).Nodup → id ∈ recordIds e1.page → id ∈ recordIds e2.page →
      id ∉ s.processed →
      countDispatch id (monitor_calls_with_recovery s [e1, e2]).2 = 1) := by
  constructor
  · intro s envs id h
    exact run_count_le_one id envs s h
  · intro s e1 e2 id hd hf1 hf2 hnd hid1 hid2 hnm
    have hcy1 : monitorCycle s e1 = steadyPhase s e1.page := by
      unfold monitorCycle
      simp [hd, fetchPhase_ok hf1]
    rw [run_snd, countDispatch_append, run_snd, countDispatch_append]
    have c1 : countDispatch id (monitorCycle s e1).2 = 1 := by
      rw [hcy1]
      exact steadyPhase_count_one s e1.page id hnd hid1 hnm
    have hmem : id ∈ (monitorCycle s e1).1.processed :=
      cycle_mem_of_count s e1 id (by omega)
    have c2 : countDispatch id (monitorCycle (monitorCycle s e1).1 e2).2 = 0 :=
      cycle_count_zero _ e2 id hmem
    have c3 : countDispatch id (monitor_calls_with_recovery
        (monitorCycle (monitorCycle s e1).1 e2).1 []).2 = 0 := rfl
    omega

/-- Witness for `dispatch_at_most_once`: a single well-formed row seen in two
consecutive snapshots is dispatched exactly once. -/
theorem dispatch_at_most_once_witness :
    countDispatch (str "A_1_2")
      (monitor_calls_with_recovery ⟨true, false, 0, []⟩ [okEnv onePage]).2 ≤ 1 ∧
    countDispatch (str "A_1_2")
      (monitor_calls_with_recovery ⟨true, false, 0, []⟩
        [okEnv onePage, okEnv onePage]).2 = 1 :=
  ⟨dispatch_at_most_once.1 ⟨true, false, 0, []⟩ [okEnv onePage] (str "A_1_2") (by decide),
   dispatch_at_most_once.2 ⟨true, false, 0, []⟩ (okEnv onePage) (okEnv onePage)
     (str "A_1_2") rfl rfl rfl (by decide) (by decide) (by decide) (by decide)⟩

end Bot
